import Mathlib

/-!
Shallow embedding of the hut-availability ingestion pipeline (`src/import.py`).

A CSV file is modelled as a list of records, each record a list of cell
strings; this matches the behaviour of Python's `csv` module, which
round-trips a list of strings to one physical line and back.  The dataset
file on disk is `Option CsvFile`, `none` meaning the file does not exist.
JSON scalar values that end up in cells are modelled by their string
rendering.  A raw upstream day-record is a structure of optional fields,
`none` meaning the key is absent from the JSON object; indexing an absent
key (`day["k"]` in Python) raises `KeyError`, modelled with `Except`.
-/

namespace Fsh

abbrev Record := List String
abbrev CsvFile := List Record

/-- `CSV_FIELDS` from `import.py` line 10: the canonical header. -/
def CSV_FIELDS : Record :=
  ["Abrufdatum", "Huette", "Buchungsdatum", "FreiePlaetze", "Kapazität", "Status"]

/-- One entry of the hut registry (`HUTS`, `import.py` lines 12-16). -/
structure Hut where
  name : String
  hutId : Nat
deriving DecidableEq, Repr

/-- The hut registry `HUTS` from `import.py` lines 12-16. -/
def HUTS : List Hut :=
  [⟨"Franz Senn Hütte", 675⟩, ⟨"Regensburger Hütte", 275⟩, ⟨"Starkenburger Hütte", 693⟩]

/-- A raw upstream day-record (one element of the JSON array returned by the
availability API).  `none` models an absent key. -/
structure RawDay where
  dateFormatted : Option String
  freeBeds : Option String
  totalSleepingPlaces : Option String
  hutStatus : Option String
deriving DecidableEq, Repr

/-- `csv.DictWriter` renders a `None` value as the empty cell. -/
def optCell : Option String → String
  | none => ""
  | some s => s

/-- `row.get(k)` on a `csv.DictReader` row: the row dictionary is built by
zipping the header with the record's cells (a duplicated header name keeps
the last value, as Python dict assignment does; a short record leaves the
key absent, which `csv` treats like the `None` restval on write), and
lookup returns `none` when the key is absent. -/
def rowGet (fieldnames : List String) (cells : Record) (k : String) : Option String :=
  (((fieldnames.zip cells).reverse).find? (fun p => p.1 == k)).map Prod.snd

/-- The dictionary built for one legacy row in `ensure_csv_schema`
(`import.py` lines 33-42), rendered in `CSV_FIELDS` order as
`csv.DictWriter.writerow` does (lines 45-47). -/
def migrateRecordCells (fieldnames : List String) (cells : Record) : Record :=
  [optCell (rowGet fieldnames cells "Abrufdatum"),
   "Franz Senn Hütte",
   optCell (rowGet fieldnames cells "Buchungsdatum"),
   optCell (rowGet fieldnames cells "FreiePlaetze"),
   optCell (rowGet fieldnames cells "Kapazität"),
   optCell (rowGet fieldnames cells "Status")]

/-- `ensure_csv_schema` (`import.py` lines 19-47) as a function on the file
state.  `none`: the file does not exist, the function returns at line 22.
An existing file's first record is `DictReader.fieldnames` (`[]` for an
empty file, where `fieldnames` is `None`); if it contains `"Huette"` the
function returns at line 28.  Otherwise all remaining records are read,
migrated, and the file is rewritten as the new header followed by the
migrated rows (lines 44-47). -/
def ensure_csv_schema : Option CsvFile → Option CsvFile
  | none => none
  | some file =>
    let existing_fields := file.head?.getD []
    if "Huette" ∈ existing_fields then some file
    else some (CSV_FIELDS :: file.tail.map (migrateRecordCells existing_fields))

/-- The row dictionary written for one day-record in `main`
(`import.py` lines 76-85), in `CSV_FIELDS` order.  `day["dateFormatted"]`
and `day["freeBeds"]` raise `KeyError` when the key is absent (modelled as
`.error ()`); `day.get` falls back to its default. -/
def normalizeDay (today hutName : String) (day : RawDay) : Except Unit Record :=
  match day.dateFormatted, day.freeBeds with
  | some date, some fb =>
      .ok [today, hutName, date, fb,
           optCell (some (day.totalSleepingPlaces.getD fb)),
           optCell (some (day.hutStatus.getD "SERVICED"))]
  | _, _ => .error ()

/-- The inner `for day in data` loop of `main` (`import.py` lines 75-85):
rows are appended one at a time; an uncaught `KeyError` stops everything,
leaving the rows already written (`Bool` result: `true` = no exception). -/
def writeDays (today hutName : String) : List RawDay → CsvFile → CsvFile × Bool
  | [], acc => (acc, true)
  | day :: rest, acc =>
    match normalizeDay today hutName day with
    | .ok rec => writeDays today hutName rest (acc ++ [rec])
    | .error _ => (acc, false)

/-- The `for hut in HUTS` loop of `main` (`import.py` lines 68-85).
`fetch` is the network oracle: what `fetch_availability(hut_id)` returns
or, on `requests.RequestException`, `.error ()` (caught at line 71:
print and `continue`).  An uncaught `KeyError` from the day loop aborts
the whole run. -/
def runHutLoop (today : String) (fetch : Nat → Except Unit (List RawDay)) :
    List Hut → CsvFile → CsvFile × Bool
  | [], acc => (acc, true)
  | hut :: rest, acc =>
    match fetch hut.hutId with
    | .error _ => runHutLoop today fetch rest acc
    | .ok days =>
      match writeDays today hut.name days acc with
      | (acc2, true) => runHutLoop today fetch rest acc2
      | (acc2, false) => (acc2, false)

/-- The content of the dataset file at the moment the hut loop starts
(`import.py` lines 57-66): after `ensure_csv_schema`, opening with mode
`"a"` creates a missing file as empty, and the header is written exactly
when `os.path.isfile` was false (the file was still absent after
migration). -/
def mainBase (st : Option CsvFile) : CsvFile :=
  match ensure_csv_schema st with
  | none => [CSV_FIELDS]
  | some f => f

/-- `main` (`import.py` lines 56-85) as a state transformer on the dataset
file.  `today` is the retrieval-date string computed at line 59.  Returns
the final file content and whether the process exited successfully
(`true`) or died on an uncaught exception (`false`). -/
def runMain (fetch : Nat → Except Unit (List RawDay)) (today : String)
    (st : Option CsvFile) : CsvFile × Bool :=
  runHutLoop today fetch HUTS (mainBase st)

/-- One invocation's inputs: the network oracle and the retrieval date. -/
structure RunParams where
  fetch : Nat → Except Unit (List RawDay)
  today : String

/-- N sequential invocations of the pipeline: after each run the file
exists (append mode created it), holding the content the run produced. -/
def runSeq : List RunParams → Option CsvFile → Option CsvFile
  | [], st => st
  | p :: rest, st => runSeq rest (some (runMain p.fetch p.today st).1)

/-- Number of physical lines equal to the canonical header. -/
def headerCount (f : CsvFile) : Nat := f.count CSV_FIELDS

/-- `datetime.today().strftime("%d-%m-%Y")` (`import.py` line 59):
two-digit zero-padded day and month, four-digit year, `-` separators,
day first. -/
def pad2 (n : Nat) : String := if n < 10 then "0" ++ toString n else toString n

def pad4 (n : Nat) : String :=
  if n < 10 then "000" ++ toString n
  else if n < 100 then "00" ++ toString n
  else if n < 1000 then "0" ++ toString n
  else toString n

def formatDMY (d m y : Nat) : String := pad2 d ++ "-" ++ pad2 m ++ "-" ++ pad4 y

/-- The sequence of file contents observable while `ensure_csv_schema`
rewrites a legacy file (`import.py` lines 44-47): `open(CSV_FILE, "w")`
truncates the file in place, `writeheader` appends the header line,
`writerows` appends the migrated rows one line at a time.  The observable
states are therefore all prefixes of the final content, starting from the
empty (just-truncated) file. -/
def migrationWriteStates (file : CsvFile) : List CsvFile :=
  let final := CSV_FIELDS :: file.tail.map (migrateRecordCells (file.head?.getD []))
  (List.range (final.length + 1)).map (fun k => final.take k)

/-! ### Support lemmas -/

/-- A successfully normalized row carries the retrieval date in cell 0 and
the hut name in cell 1. -/
theorem normalizeDay_ok_cells {t n : String} {day : RawDay} {l : Record}
    (h : normalizeDay t n day = .ok l) :
    l[0]? = some t ∧ l[1]? = some n := by
  obtain ⟨date, fb, tsp, hs⟩ := day
  cases date <;> cases fb <;> simp [normalizeDay] at h
  subst h
  simp

/-- The day loop only appends rows, each the successful normalization of
one of its day-records. -/
theorem writeDays_append (t n : String) :
    ∀ (days : List RawDay) (acc : CsvFile),
      ∃ extra, (writeDays t n days acc).1 = acc ++ extra ∧
        ∀ l ∈ extra, ∃ day, normalizeDay t n day = .ok l := by
  intro days
  induction days with
  | nil => exact fun acc => ⟨[], by simp [writeDays], by simp⟩
  | cons day rest ih =>
    intro acc
    cases hnd : normalizeDay t n day with
    | error e => exact ⟨[], by simp [writeDays, hnd], by simp⟩
    | ok rec =>
      obtain ⟨extra, h1, h2⟩ := ih (acc ++ [rec])
      refine ⟨rec :: extra, by simp [writeDays, hnd, h1], ?_⟩
      intro l hl
      rcases List.mem_cons.mp hl with h | h
      · exact ⟨day, h ▸ hnd⟩
      · exact h2 l h

/-- The hut loop only appends rows, each the successful normalization of a
day-record for one of the registered huts. -/
theorem runHutLoop_append (t : String) (fetch : Nat → Except Unit (List RawDay)) :
    ∀ (huts : List Hut) (acc : CsvFile),
      ∃ extra, (runHutLoop t fetch huts acc).1 = acc ++ extra ∧
        ∀ l ∈ extra, ∃ hut ∈ huts, ∃ day, normalizeDay t hut.name day = .ok l := by
  intro huts
  induction huts with
  | nil => exact fun acc => ⟨[], by simp [runHutLoop], by simp⟩
  | cons hut rest ih =>
    intro acc
    cases hfe : fetch hut.hutId with
    | error e =>
      obtain ⟨extra, h1, h2⟩ := ih acc
      exact ⟨extra, by simp [runHutLoop, hfe, h1], fun l hl =>
        (h2 l hl).elim fun h hh => ⟨h, List.mem_cons_of_mem _ hh.1, hh.2⟩⟩
    | ok days =>
      obtain ⟨extra1, hw1, hw2⟩ := writeDays_append t hut.name days acc
      rcases hwd : writeDays t hut.name days acc with ⟨acc2, b⟩
      have hacc2 : acc2 = acc ++ extra1 := by rw [hwd] at hw1; exact hw1
      subst hacc2
      cases b with
      | true =>
        obtain ⟨extra2, h1, h2⟩ := ih (acc ++ extra1)
        refine ⟨extra1 ++ extra2, ?_, ?_⟩
        · simp [runHutLoop, hfe, hwd, h1]
        · intro l hl
          rcases List.mem_append.mp hl with h | h
          · exact ⟨hut, List.mem_cons_self _ _, hw2 l h⟩
          · exact (h2 l h).elim fun hh hhh => ⟨hh, List.mem_cons_of_mem _ hhh.1, hhh.2⟩
      | false =>
        refine ⟨extra1, ?_, fun l hl => ⟨hut, List.mem_cons_self _ _, hw2 l hl⟩⟩
        simp [runHutLoop, hfe, hwd]

/-- `runMain` only appends to the post-migration base content. -/
theorem runMain_append (fetch : Nat → Except Unit (List RawDay)) (t : String)
    (st : Option CsvFile) :
    ∃ extra, (runMain fetch t st).1 = mainBase st ++ extra ∧
      ∀ l ∈ extra, ∃ hut ∈ HUTS, ∃ day, normalizeDay t hut.name day = .ok l :=
  runHutLoop_append t fetch HUTS (mainBase st)

/-- No registered hut is named like the header field `"Huette"`. -/
theorem huts_name_ne : ∀ hut ∈ HUTS, hut.name ≠ "Huette" := by decide

/-- A row appended for a registered hut is never the header line. -/
theorem appended_ne_header {t : String} {l : Record}
    (h : ∃ hut ∈ HUTS, ∃ day, normalizeDay t hut.name day = .ok l) :
    l ≠ CSV_FIELDS := by
  obtain ⟨hut, hmem, day, hok⟩ := h
  intro he
  have h1 := (normalizeDay_ok_cells hok).2
  rw [he] at h1
  have : some "Huette" = some hut.name := h1
  exact huts_name_ne hut hmem (Option.some.inj this).symm

/-- The header invariant: the first line is the canonical header and it is
the only header line in the file. -/
def HeaderInv (f : CsvFile) : Prop :=
  f.head? = some CSV_FIELDS ∧ headerCount f = 1

/-- On a file whose header already contains `Huette`, `ensure_csv_schema`
returns at line 28 without writing. -/
theorem ensure_noop_of_header {f : CsvFile}
    (h : "Huette" ∈ f.head?.getD []) :
    ensure_csv_schema (some f) = some f := by
  simp [ensure_csv_schema, h]

/-- A run whose post-migration base satisfies the header invariant produces
a file satisfying it: appended rows are never header lines. -/
theorem runMain_headerInv (fetch : Nat → Except Unit (List RawDay)) (t : String)
    (st : Option CsvFile) (h : HeaderInv (mainBase st)) :
    HeaderInv (runMain fetch t st).1 := by
  obtain ⟨extra, h1, h2⟩ := runMain_append fetch t st
  obtain ⟨hhd, hcnt⟩ := h
  have hne : CSV_FIELDS ∉ extra := fun hmem =>
    appended_ne_header (h2 CSV_FIELDS hmem) rfl
  constructor
  · rw [h1]
    cases hb : mainBase st with
    | nil => rw [hb] at hhd; simp at hhd
    | cons a rest => rw [hb] at hhd; simp at hhd; simp [hhd]
  · rw [h1]
    unfold headerCount at hcnt ⊢
    rw [List.count_append, hcnt, List.count_eq_zero.mpr hne]

/-- The base after migrating an absent or header-invariant file satisfies
the header invariant. -/
theorem mainBase_headerInv (st : Option CsvFile)
    (h : st = none ∨ ∃ f, st = some f ∧ HeaderInv f) :
    HeaderInv (mainBase st) := by
  rcases h with h | ⟨f, rfl, hf⟩
  · subst h
    exact ⟨rfl, by simp [headerCount, mainBase, ensure_csv_schema]⟩
  · have : ensure_csv_schema (some f) = some f :=
      ensure_noop_of_header (by rw [hf.1]; simp; decide)
    simpa [mainBase, this] using hf

/-- Runs preserve the header invariant. -/
theorem runSeq_headerInv : ∀ (ps : List RunParams) (f : CsvFile),
    HeaderInv f → ∃ g, runSeq ps (some f) = some g ∧ HeaderInv g := by
  intro ps
  induction ps with
  | nil => exact fun f hf => ⟨f, rfl, hf⟩
  | cons p rest ih =>
    intro f hf
    have h1 : HeaderInv (runMain p.fetch p.today (some f)).1 :=
      runMain_headerInv _ _ _ (mainBase_headerInv _ (Or.inr ⟨f, rfl, hf⟩))
    exact ih _ h1

/-- Looking up each canonical field in a six-cell record hits the cell at
the field's position in `CSV_FIELDS`. -/
theorem rowGet_canonical (c0 c1 c2 c3 c4 c5 : String) :
    rowGet CSV_FIELDS [c0, c1, c2, c3, c4, c5] "Abrufdatum" = some c0 ∧
    rowGet CSV_FIELDS [c0, c1, c2, c3, c4, c5] "Huette" = some c1 ∧
    rowGet CSV_FIELDS [c0, c1, c2, c3, c4, c5] "Buchungsdatum" = some c2 ∧
    rowGet CSV_FIELDS [c0, c1, c2, c3, c4, c5] "FreiePlaetze" = some c3 ∧
    rowGet CSV_FIELDS [c0, c1, c2, c3, c4, c5] "Kapazität" = some c4 ∧
    rowGet CSV_FIELDS [c0, c1, c2, c3, c4, c5] "Status" = some c5 :=
  ⟨rfl, rfl, rfl, rfl, rfl, rfl⟩

/-- Reading a migrated row back through the canonical header returns the
backfilled hut name and, for the other fields, the legacy row's value. -/
theorem migrateRecordCells_rowGet (hdr : List String) (cells : Record) :
    rowGet CSV_FIELDS (migrateRecordCells hdr cells) "Abrufdatum"
      = some (optCell (rowGet hdr cells "Abrufdatum")) ∧
    rowGet CSV_FIELDS (migrateRecordCells hdr cells) "Huette"
      = some "Franz Senn Hütte" ∧
    rowGet CSV_FIELDS (migrateRecordCells hdr cells) "Buchungsdatum"
      = some (optCell (rowGet hdr cells "Buchungsdatum")) ∧
    rowGet CSV_FIELDS (migrateRecordCells hdr cells) "FreiePlaetze"
      = some (optCell (rowGet hdr cells "FreiePlaetze")) ∧
    rowGet CSV_FIELDS (migrateRecordCells hdr cells) "Kapazität"
      = some (optCell (rowGet hdr cells "Kapazität")) ∧
    rowGet CSV_FIELDS (migrateRecordCells hdr cells) "Status"
      = some (optCell (rowGet hdr cells "Status")) :=
  ⟨rfl, rfl, rfl, rfl, rfl, rfl⟩

/-- The row written for a well-formed day-record (both required keys
present), spelled out as a total function. -/
def normRecordTotal (today hutName : String) (day : RawDay) : Record :=
  [today, hutName, day.dateFormatted.getD "", day.freeBeds.getD "",
   day.totalSleepingPlaces.getD (day.freeBeds.getD ""),
   day.hutStatus.getD "SERVICED"]

/-- On a well-formed day-record, normalization succeeds with the
spelled-out row. -/
theorem normalizeDay_of_wf {day : RawDay} (h1 : day.dateFormatted.isSome)
    (h2 : day.freeBeds.isSome) (t n : String) :
    normalizeDay t n day = .ok (normRecordTotal t n day) := by
  obtain ⟨date, fb, tsp, hs⟩ := day
  cases date with
  | none => simp at h1
  | some d =>
    cases fb with
    | none => simp at h2
    | some fbv => rfl

/-- The day loop on a list of well-formed day-records appends exactly their
normalizations, in order, and reports success. -/
theorem writeDays_all_ok (t n : String) :
    ∀ (days : List RawDay),
      (∀ d ∈ days, d.dateFormatted.isSome ∧ d.freeBeds.isSome) →
      ∀ acc, writeDays t n days acc = (acc ++ days.map (normRecordTotal t n), true) := by
  intro days
  induction days with
  | nil => intro _ acc; simp [writeDays]
  | cons day rest ih =>
    intro h acc
    have hd := h day (List.mem_cons_self _ _)
    have hrest := fun d hdm => h d (List.mem_cons_of_mem _ hdm)
    simp [writeDays, normalizeDay_of_wf hd.1 hd.2 t n, ih hrest]

/-- The network oracle of the partial-failure scenario: huts 675 and 693
answer with data, hut 275's fetch raises a `requests.RequestException`. -/
def isolationFetch (days1 days3 : List RawDay) : Nat → Except Unit (List RawDay) :=
  fun n => if n = 675 then .ok days1 else if n = 275 then .error () else .ok days3

/-! ### Concrete inputs used in counterexamples and witnesses -/

/-- The pre-multi-hut header: `CSV_FIELDS` without `Huette`. -/
def legacyHdrEx : Record :=
  ["Abrufdatum", "Buchungsdatum", "FreiePlaetze", "Kapazität", "Status"]

/-- A concrete legacy dataset file with one data row. -/
def fLegacyEx : CsvFile :=
  [legacyHdrEx, ["01-01-2024", "02-01-2024", "3", "5", "SERVICED"]]

/-- A concrete current-schema dataset file with one data row. -/
def fCurrentEx : CsvFile :=
  [CSV_FIELDS, ["09-10-2025", "Franz Senn Hütte", "05-03-2025", "12", "12", "SERVICED"]]

/-- A well-formed raw day-record with both optional keys absent. -/
def goodDayEx : RawDay := ⟨some "05-03-2025", some "12", none, none⟩

/-- A malformed raw day-record: the required `freeBeds` key is absent. -/
def badDayEx : RawDay := ⟨some "05-03-2025", none, none, none⟩

/-- A network oracle under which every hut's fetch fails. -/
def fetchNoneEx : Nat → Except Unit (List RawDay) := fun _ => .error ()

/-- A network oracle: hut 675 answers a malformed day-record followed by a
well-formed one; every other hut answers one well-formed day-record. -/
def fetchBadFirstEx : Nat → Except Unit (List RawDay) :=
  fun n => if n = 675 then .ok [badDayEx, goodDayEx] else .ok [goodDayEx]

/-! ### Claims -/

/-- Claim C1: for every positive number of sequential invocations of the
pipeline (migrate then append) starting from an absent dataset file, the
resulting dataset file exists, its first line is the canonical header, and
it contains exactly one header line, regardless of how many runs there
were and what each run's fetches returned — the header is written only
when the file does not yet exist. -/
theorem claim_C1_header_once (ps : List RunParams) (hps : ps ≠ []) :
    ∃ f, runSeq ps none = some f ∧
      f.head? = some CSV_FIELDS ∧ headerCount f = 1 := by
  cases ps with
  | nil => exact absurd rfl hps
  | cons p rest =>
    have h1 : HeaderInv (runMain p.fetch p.today none).1 :=
      runMain_headerInv _ _ _ (mainBase_headerInv _ (Or.inl rfl))
    obtain ⟨g, hg, hinv⟩ := runSeq_headerInv rest _ h1
    exact ⟨g, hg, hinv.1, hinv.2⟩

theorem claim_C1_header_once_witness :
    ([⟨fetchNoneEx, "10-10-2025"⟩] : List RunParams) ≠ [] ∧
    ∃ f, runSeq [⟨fetchNoneEx, "10-10-2025"⟩] none = some f ∧
      f.head? = some CSV_FIELDS ∧ headerCount f = 1 :=
  ⟨by simp, claim_C1_header_once [⟨fetchNoneEx, "10-10-2025"⟩] (by simp)⟩

/-- Claim C2: running the Schema Migrator twice on a legacy dataset file
(header lacking `Huette`) produces the same result as running it once: the
second run finds `Huette` in the migrated header and returns without
writing. -/
theorem claim_C2_migration_idempotent (f : CsvFile)
    (h : "Huette" ∉ f.head?.getD []) :
    ensure_csv_schema (ensure_csv_schema (some f)) = ensure_csv_schema (some f) ∧
    ∃ g, ensure_csv_schema (some f) = some g ∧ "Huette" ∈ g.head?.getD [] := by
  have h1 : ensure_csv_schema (some f)
      = some (CSV_FIELDS :: f.tail.map (migrateRecordCells (f.head?.getD []))) := by
    simp [ensure_csv_schema, h]
  have hg : "Huette" ∈
      (CSV_FIELDS :: f.tail.map (migrateRecordCells (f.head?.getD []))).head?.getD [] := by
    show "Huette" ∈ CSV_FIELDS
    decide
  exact ⟨by rw [h1, ensure_noop_of_header hg], _, h1, hg⟩

theorem claim_C2_migration_idempotent_witness :
    "Huette" ∉ fLegacyEx.head?.getD [] ∧
    (ensure_csv_schema (ensure_csv_schema (some fLegacyEx))
        = ensure_csv_schema (some fLegacyEx) ∧
     ∃ g, ensure_csv_schema (some fLegacyEx) = some g ∧
       "Huette" ∈ g.head?.getD []) :=
  ⟨by decide, claim_C2_migration_idempotent fLegacyEx (by decide)⟩

/-- Claim C3: migrating a legacy dataset file (header lacking `Huette`)
keeps the row count, gives every migrated row `Huette` equal to the fixed
default "Franz Senn Hütte", and leaves each row's other five field values
(Abrufdatum, Buchungsdatum, FreiePlaetze, Kapazität, Status) unchanged. -/
theorem claim_C3_backfill (f : CsvFile) (h : "Huette" ∉ f.head?.getD []) :
    ∃ g, ensure_csv_schema (some f) = some g ∧
      g.tail.length = f.tail.length ∧
      ∀ (i : Nat) (cells : Record), f.tail[i]? = some cells →
        ∃ mcells, g.tail[i]? = some mcells ∧
          rowGet CSV_FIELDS mcells "Huette" = some "Franz Senn Hütte" ∧
          ∀ k ∈ ["Abrufdatum", "Buchungsdatum", "FreiePlaetze", "Kapazität", "Status"],
            ∀ v, rowGet (f.head?.getD []) cells k = some v →
              rowGet CSV_FIELDS mcells k = some v := by
  refine ⟨CSV_FIELDS :: f.tail.map (migrateRecordCells (f.head?.getD [])),
    by simp [ensure_csv_schema, h], by simp, ?_⟩
  intro i cells hc
  refine ⟨migrateRecordCells (f.head?.getD []) cells, ?_, ?_, ?_⟩
  · show (f.tail.map (migrateRecordCells (f.head?.getD [])))[i]? = _
    rw [List.getElem?_map, hc]
    rfl
  · exact (migrateRecordCells_rowGet _ _).2.1
  · intro k hk v hv
    have hmig := migrateRecordCells_rowGet (f.head?.getD []) cells
    simp at hk
    rcases hk with rfl | rfl | rfl | rfl | rfl
    · rw [hmig.1, hv]; rfl
    · rw [hmig.2.2.1, hv]; rfl
    · rw [hmig.2.2.2.1, hv]; rfl
    · rw [hmig.2.2.2.2.1, hv]; rfl
    · rw [hmig.2.2.2.2.2, hv]; rfl

theorem claim_C3_backfill_witness :
    "Huette" ∉ fLegacyEx.head?.getD [] ∧
    ∃ g, ensure_csv_schema (some fLegacyEx) = some g ∧
      g.tail.length = fLegacyEx.tail.length ∧
      ∀ (i : Nat) (cells : Record), fLegacyEx.tail[i]? = some cells →
        ∃ mcells, g.tail[i]? = some mcells ∧
          rowGet CSV_FIELDS mcells "Huette" = some "Franz Senn Hütte" ∧
          ∀ k ∈ ["Abrufdatum", "Buchungsdatum", "FreiePlaetze", "Kapazität", "Status"],
            ∀ v, rowGet (fLegacyEx.head?.getD []) cells k = some v →
              rowGet CSV_FIELDS mcells k = some v :=
  ⟨by decide, claim_C3_backfill fLegacyEx (by decide)⟩

/-- Claim C4: normalizing a raw day-record with `totalSleepingPlaces` and
`hutStatus` absent yields `Kapazität` equal to the record's `freeBeds`
value and `Status` equal to the literal `"SERVICED"`; when those keys are
present their values are used directly. -/
theorem claim_C4_defaulting (today hutName date fb tsp hs : String) :
    (∃ r, normalizeDay today hutName ⟨some date, some fb, none, none⟩ = .ok r ∧
       rowGet CSV_FIELDS r "Kapazität" = some fb ∧
       rowGet CSV_FIELDS r "Status" = some "SERVICED") ∧
    (∃ r, normalizeDay today hutName ⟨some date, some fb, some tsp, some hs⟩ = .ok r ∧
       rowGet CSV_FIELDS r "Kapazität" = some tsp ∧
       rowGet CSV_FIELDS r "Status" = some hs) :=
  ⟨⟨_, rfl, rfl, rfl⟩, ⟨_, rfl, rfl, rfl⟩⟩

/-- Claim C5: a fetch failure for hut 2 is caught and does not abort the
pass: with well-formed data for huts 1 and 3 and a failing fetch for
hut 2, the completed run appends exactly the normalized rows of huts 1 and
3 — none of which is a hut-2 row — and exits successfully. -/
theorem claim_C5_partial_failure (days1 days3 : List RawDay) (f : CsvFile)
    (today : String)
    (h1 : ∀ d ∈ days1, d.dateFormatted.isSome ∧ d.freeBeds.isSome)
    (h3 : ∀ d ∈ days3, d.dateFormatted.isSome ∧ d.freeBeds.isSome)
    (hf : "Huette" ∈ f.head?.getD []) :
    runMain (isolationFetch days1 days3) today (some f)
      = (f ++ days1.map (normRecordTotal today "Franz Senn Hütte")
           ++ days3.map (normRecordTotal today "Starkenburger Hütte"), true) ∧
    ∀ l ∈ days1.map (normRecordTotal today "Franz Senn Hütte")
        ++ days3.map (normRecordTotal today "Starkenburger Hütte"),
      l[1]? ≠ some "Regensburger Hütte" := by
  constructor
  · have e1 : isolationFetch days1 days3 675 = .ok days1 := by simp [isolationFetch]
    have e2 : isolationFetch days1 days3 275 = .error () := by simp [isolationFetch]
    have e3 : isolationFetch days1 days3 693 = .ok days3 := by simp [isolationFetch]
    have w1 := writeDays_all_ok today "Franz Senn Hütte" days1 h1 f
    have w3 := writeDays_all_ok today "Starkenburger Hütte" days3 h3
      (f ++ days1.map (normRecordTotal today "Franz Senn Hütte"))
    simp [runMain, mainBase, ensure_noop_of_header hf, HUTS, runHutLoop,
      e1, e2, e3, w1, w3]
  · intro l hl
    rcases List.mem_append.mp hl with h | h <;>
      · obtain ⟨day, _, rfl⟩ := List.mem_map.mp h
        simp [normRecordTotal]

theorem claim_C5_partial_failure_witness :
    (∀ d ∈ [goodDayEx], d.dateFormatted.isSome ∧ d.freeBeds.isSome) ∧
    (∀ d ∈ ([] : List RawDay), d.dateFormatted.isSome ∧ d.freeBeds.isSome) ∧
    "Huette" ∈ (fCurrentEx.head?.getD []) ∧
    (runMain (isolationFetch [goodDayEx] []) "10-10-2025" (some fCurrentEx)
      = (fCurrentEx ++ [goodDayEx].map (normRecordTotal "10-10-2025" "Franz Senn Hütte")
           ++ ([] : List RawDay).map (normRecordTotal "10-10-2025" "Starkenburger Hütte"),
         true) ∧
     ∀ l ∈ [goodDayEx].map (normRecordTotal "10-10-2025" "Franz Senn Hütte")
         ++ ([] : List RawDay).map (normRecordTotal "10-10-2025" "Starkenburger Hütte"),
       l[1]? ≠ some "Regensburger Hütte") :=
  ⟨by decide, by decide, by decide,
   claim_C5_partial_failure [goodDayEx] [] fCurrentEx "10-10-2025"
     (by decide) (by decide) (by decide)⟩

/-- Claim C6 counterexample: migrating the concrete legacy file
`fLegacyEx` is not all-or-nothing — among the observable states of the
in-place rewrite are the just-truncated empty file and the header-only
file, each of which is neither the pre-migration contents nor the final
migrated contents, so an observer can see a half-written file and an
interrupted rewrite leaves partial migrated data instead of the
pre-migration contents. -/
theorem claim_C6_counterexample :
    (([] : CsvFile) ∈ migrationWriteStates fLegacyEx ∧ ([] : CsvFile) ≠ fLegacyEx ∧
      some ([] : CsvFile) ≠ ensure_csv_schema (some fLegacyEx)) ∧
    ([CSV_FIELDS] ∈ migrationWriteStates fLegacyEx ∧ [CSV_FIELDS] ≠ fLegacyEx ∧
      some [CSV_FIELDS] ≠ ensure_csv_schema (some fLegacyEx)) := by decide

/-- Claim C6 amended: the legacy-to-current rewrite is performed in place
by truncating the dataset file and rewriting it, so the observable
intermediate states are exactly the partial outputs — every state is some
prefix of the final migrated content, the just-truncated empty state (in
which the pre-migration contents are already destroyed) is among them, and
a completed rewrite holds the new header followed by the migrated rows. -/
theorem claim_C6_amended_in_place (f : CsvFile)
    (h : "Huette" ∉ f.head?.getD []) :
    (∀ s ∈ migrationWriteStates f,
       ∃ k, s = (CSV_FIELDS :: f.tail.map (migrateRecordCells (f.head?.getD []))).take k) ∧
    ([] : CsvFile) ∈ migrationWriteStates f ∧
    ensure_csv_schema (some f)
      = some (CSV_FIELDS :: f.tail.map (migrateRecordCells (f.head?.getD []))) := by
  refine ⟨?_, ?_, by simp [ensure_csv_schema, h]⟩
  · intro s hs
    simp only [migrationWriteStates, List.mem_map, List.mem_range] at hs
    obtain ⟨k, _, hk⟩ := hs
    exact ⟨k, hk.symm⟩
  · simp only [migrationWriteStates, List.mem_map, List.mem_range]
    exact ⟨0, by omega, rfl⟩

theorem claim_C6_amended_in_place_witness :
    "Huette" ∉ fLegacyEx.head?.getD [] ∧
    ((∀ s ∈ migrationWriteStates fLegacyEx,
        ∃ k, s = (CSV_FIELDS ::
          fLegacyEx.tail.map (migrateRecordCells (fLegacyEx.head?.getD []))).take k) ∧
     ([] : CsvFile) ∈ migrationWriteStates fLegacyEx ∧
     ensure_csv_schema (some fLegacyEx)
       = some (CSV_FIELDS ::
           fLegacyEx.tail.map (migrateRecordCells (fLegacyEx.head?.getD [])))) :=
  ⟨by decide, claim_C6_amended_in_place fLegacyEx (by decide)⟩

/-- Claim C7 counterexample: a run that completes successfully but appends
nothing — the current-schema file `fCurrentEx` together with the oracle
`fetchNoneEx`, under which every hut's fetch fails — leaves the row set
unchanged, so the pre-run row set is not a strict subset of the post-run
row set. -/
theorem claim_C7_counterexample :
    (runMain fetchNoneEx "10-10-2025" (some fCurrentEx)).2 = true ∧
    ¬ fCurrentEx.tail.toFinset
        ⊂ (runMain fetchNoneEx "10-10-2025" (some fCurrentEx)).1.tail.toFinset := by
  have h : runMain fetchNoneEx "10-10-2025" (some fCurrentEx) = (fCurrentEx, true) := by
    decide
  rw [h]
  exact ⟨rfl, fun hss => ssubset_irrefl _ hss⟩

/-- Claim C7 amended: a run starting from an absent or Current-schema
dataset file only grows it — the pre-run content is an unchanged prefix of
the post-run content, so no existing row is altered or removed and the
pre-run row set is a subset (not necessarily strict: a run in which no
day-record is appended, e.g. when every fetch fails, leaves the file
unchanged) of the post-run row set. -/
theorem claim_C7_amended_append_only (fetch : Nat → Except Unit (List RawDay))
    (today : String) (st : Option CsvFile)
    (h : st = none ∨ ∃ f, st = some f ∧ "Huette" ∈ f.head?.getD []) :
    ∃ extra, (runMain fetch today st).1 = st.getD [] ++ extra ∧
      (st.getD []).toFinset ⊆ ((runMain fetch today st).1).toFinset := by
  obtain ⟨extra, he, _⟩ := runMain_append fetch today st
  rcases h with rfl | ⟨f, rfl, hf⟩
  · exact ⟨[CSV_FIELDS] ++ extra, by simpa [mainBase, ensure_csv_schema] using he,
      by simp⟩
  · have hb : mainBase (some f) = f := by
      simp [mainBase, ensure_noop_of_header hf]
    rw [hb] at he
    exact ⟨extra, he, by rw [he]; simp [List.toFinset_append]⟩

theorem claim_C7_amended_append_only_witness :
    (some fCurrentEx = none ∨
      ∃ f, some fCurrentEx = some f ∧ "Huette" ∈ f.head?.getD []) ∧
    ∃ extra, (runMain fetchNoneEx "10-10-2025" (some fCurrentEx)).1
        = (some fCurrentEx).getD [] ++ extra ∧
      ((some fCurrentEx).getD []).toFinset
        ⊆ ((runMain fetchNoneEx "10-10-2025" (some fCurrentEx)).1).toFinset :=
  ⟨Or.inr ⟨fCurrentEx, rfl, by decide⟩,
   claim_C7_amended_append_only fetchNoneEx "10-10-2025" (some fCurrentEx)
     (Or.inr ⟨fCurrentEx, rfl, by decide⟩)⟩

/-- Claim C8 counterexample: under the oracle `fetchBadFirstEx` — hut 1
returns a day-record missing `freeBeds` followed by a well-formed one,
huts 2 and 3 return well-formed data — the run aborts with the file
unchanged: the single malformed day-record kills the other day-record,
the other huts, and the whole run, instead of failing alone. -/
theorem claim_C8_counterexample :
    runMain fetchBadFirstEx "10-10-2025" (some [CSV_FIELDS])
      = ([CSV_FIELDS], false) := by decide

/-- Claim C8 amended: a day-record missing a required key (`dateFormatted`
or `freeBeds`) raises an uncaught `KeyError` that aborts the entire run:
when hut 1's fetch returns such a record first, the run ends with the file
unchanged and an unsuccessful exit, whatever the other huts would have
returned; a present but unparseable `dateFormatted` is not detected — the
string is written verbatim, dates are never parsed. -/
theorem claim_C8_amended_abort (fetch : Nat → Except Unit (List RawDay))
    (today : String) (f : CsvFile) (bad : RawDay) (rest : List RawDay)
    (hf : "Huette" ∈ f.head?.getD [])
    (hfe : fetch 675 = .ok (bad :: rest))
    (hbad : bad.dateFormatted = none ∨ bad.freeBeds = none) :
    runMain fetch today (some f) = (f, false) ∧
    ∀ (s fb n t : String),
      normalizeDay t n ⟨some s, some fb, none, none⟩
        = .ok [t, n, s, fb, fb, "SERVICED"] := by
  refine ⟨?_, fun s fb n t => rfl⟩
  have hnd : normalizeDay today "Franz Senn Hütte" bad = .error () := by
    obtain ⟨d, fbb, tsp, hs⟩ := bad
    cases d <;> cases fbb <;> first
      | rfl
      | (exfalso; rcases hbad with hx | hx <;> simp_all)
  simp [runMain, mainBase, ensure_noop_of_header hf, HUTS, runHutLoop,
    hfe, writeDays, hnd]

theorem claim_C8_amended_abort_witness :
    "Huette" ∈ (([CSV_FIELDS] : CsvFile).head?.getD []) ∧
    fetchBadFirstEx 675 = .ok (badDayEx :: [goodDayEx]) ∧
    (badDayEx.dateFormatted = none ∨ badDayEx.freeBeds = none) ∧
    (runMain fetchBadFirstEx "10-10-2025" (some [CSV_FIELDS])
        = ([CSV_FIELDS], false) ∧
     ∀ (s fb n t : String),
       normalizeDay t n ⟨some s, some fb, none, none⟩
         = .ok [t, n, s, fb, fb, "SERVICED"]) :=
  ⟨by decide, rfl, by decide,
   claim_C8_amended_abort fetchBadFirstEx "10-10-2025" [CSV_FIELDS]
     badDayEx [goodDayEx] (by decide) rfl (by decide)⟩

/-- Claim C9: every row appended during one polling pass carries the same
`Abrufdatum` cell: the pass's retrieval date, rendered day-month-year with
`-` separators by `formatDMY` (the embedding of
`strftime("%d-%m-%Y")`, e.g. the 5th of March 2025 renders as
`"05-03-2025"`). -/
theorem claim_C9_abrufdatum (d m y : Nat)
    (fetch : Nat → Except Unit (List RawDay)) (st : Option CsvFile) :
    formatDMY 5 3 2025 = "05-03-2025" ∧
    ∃ extra, (runMain fetch (formatDMY d m y) st).1 = mainBase st ++ extra ∧
      ∀ l ∈ extra, l[0]? = some (formatDMY d m y) := by
  refine ⟨by decide, ?_⟩
  obtain ⟨extra, h1, h2⟩ := runMain_append fetch (formatDMY d m y) st
  refine ⟨extra, h1, fun l hl => ?_⟩
  obtain ⟨hut, _, day, hok⟩ := h2 l hl
  exact (normalizeDay_ok_cells hok).1

/-- Claim C10: an existing but empty dataset file is treated as legacy:
the migrator rewrites it to exactly the canonical six-field header and
zero data rows, and the append in the same run, seeing an existing file,
writes no second header — the run's resulting file starts with the header
and holds exactly one header line. -/
theorem claim_C10_empty_file (fetch : Nat → Except Unit (List RawDay))
    (today : String) :
    ensure_csv_schema (some []) = some [CSV_FIELDS] ∧
    (runMain fetch today (some [])).1.head? = some CSV_FIELDS ∧
    headerCount (runMain fetch today (some [])).1 = 1 := by
  have h : HeaderInv (mainBase (some [])) := ⟨rfl, by decide⟩
  have h2 := runMain_headerInv fetch today (some []) h
  exact ⟨rfl, h2.1, h2.2⟩

end Fsh
